import Mathlib

/-!
Verification of the minimal PNG encoder in `create_assets.py`
(`create_simple_png` and its inner helper `write_png_chunk`).

Bytes are modelled as natural numbers below 256; Python byte strings
become `List Nat`.  Python exceptions are modelled with `Except PyError`:
`struct.pack('>I', n)` raises `struct.error` when `n` is outside
`[0, 2^32)`, and calling a missing method raises `AttributeError`.

A central fact about the source: `create_simple_png` builds its output in
a `bytearray` (`png_data`) and passes it to `write_png_chunk`, whose body
calls `f.write(...)`.  A Python `bytearray` has no `write` method, so
every call of `create_simple_png` whose dimensions survive `struct.pack`
raises `AttributeError` inside the first `write_png_chunk` call; the
function never returns a byte sequence.  The evident intent of the code
(the buffer is created, extended with the signature, and returned as
`bytes(png_data)`) is that each write appends to the buffer.  Both
semantics are embedded below: `create_simple_png` is the faithful model,
and `create_simple_png_intended` is identical except that the `f.write`
calls append to the buffer.
-/

/-- Python errors that the encoder can raise: `struct.error` from
`struct.pack`, and `AttributeError` from calling a method that does not
exist (`bytearray.write`). -/
inductive PyError where
  | structError
  | attributeError
deriving DecidableEq

/-- Big-endian 4-byte encoding, as produced by `struct.pack('>I', n)`
for `n` in `[0, 2^32)`. -/
def be32 (n : Nat) : List Nat :=
  [n / 16777216 % 256, n / 65536 % 256, n / 256 % 256, n % 256]

/-- `struct.pack('>I', n)` on a Python int `n`: 4 big-endian bytes when
`0 ≤ n < 2^32`, otherwise `struct.error`. -/
def structPackBE32 (n : Int) : Except PyError (List Nat) :=
  if 0 ≤ n ∧ n < 4294967296 then Except.ok (be32 n.toNat) else Except.error PyError.structError

/-- One iteration of the inner `for _ in range(8)` loop of the CRC
computation in `write_png_chunk`:
`crc = (crc >> 1) ^ 0xedb88320 if crc & 1 else crc >> 1`. -/
def crcRound (crc : Nat) : Nat :=
  if crc % 2 = 1 then (crc / 2) ^^^ 0xedb88320 else crc / 2

/-- Processing one byte in the CRC loop of `write_png_chunk`:
`crc ^= byte`, then 8 rounds of `crcRound`. -/
def crcByte (crc b : Nat) : Nat :=
  crcRound^[8] (crc ^^^ b)

/-- The CRC-32 checksum as computed by the loop in `write_png_chunk`:
start from `0xffffffff`, fold `crcByte` over the bytes, and finish with
`crc ^ 0xffffffff`.  (This is the standard CRC-32 with the bit-reversed
polynomial `0xEDB88320`.) -/
def crc32 (bs : List Nat) : Nat :=
  (bs.foldl crcByte 0xffffffff) ^^^ 0xffffffff

/-- The 8-byte PNG signature `b'\x89PNG\r\n\x1a\n'`. -/
def pngSignature : List Nat := [137, 80, 78, 71, 13, 10, 26, 10]

/-- The chunk tag `b'IHDR'`. -/
def ihdrTag : List Nat := [73, 72, 68, 82]

/-- The chunk tag `b'IDAT'`. -/
def idatTag : List Nat := [73, 68, 65, 84]

/-- The chunk tag `b'IEND'`. -/
def iendTag : List Nat := [73, 69, 78, 68]

/-- The hard-coded IDAT payload
`b'\x78\x9c\x62\x00\x00\x00\x02\x00\x01'` from `create_simple_png`. -/
def idat_data : List Nat := [120, 156, 98, 0, 0, 0, 2, 0, 1]

/-- `write_png_chunk(f, chunk_type, data)`, faithful to the source.  Its
first statement is `f.write(struct.pack('>I', len(data)))`, but `f` is
the `bytearray` `png_data`, and `bytearray` has no `write` method, so
the call raises `AttributeError` before anything else happens. -/
def write_png_chunk (f chunk_type data : List Nat) : Except PyError (List Nat) :=
  Except.error PyError.attributeError

/-- `create_simple_png(width, height, color)`, faithful to the source:
`png_data = bytearray()`, extended with the PNG signature; then
`ihdr_data = struct.pack('>IIBBBBB', width, height, 8, 2, 0, 0, 0)`
(raising `struct.error` when width or height is outside `[0, 2^32)`);
then three `write_png_chunk` calls, the first of which raises
`AttributeError`.  The `color` argument is never used. -/
def create_simple_png (width height : Int) (color : Int × Int × Int) :
    Except PyError (List Nat) := do
  let png_data : List Nat := []
  let png_data := png_data ++ pngSignature
  let wBytes ← structPackBE32 width
  let hBytes ← structPackBE32 height
  let ihdr_data := wBytes ++ hBytes ++ [8, 2, 0, 0, 0]
  let png_data ← write_png_chunk png_data ihdrTag ihdr_data
  let png_data ← write_png_chunk png_data idatTag idat_data
  let png_data ← write_png_chunk png_data iendTag []
  Except.ok png_data

/-- `write_png_chunk` with the single evident repair: each `f.write(x)`
on the `bytearray` is read as appending `x` to the buffer (the source as
written raises `AttributeError`, since `bytearray` has no `write`
method; appending is what the surrounding code — `png_data.extend`,
`return bytes(png_data)` — intends).  Everything else (the length
prefix, the tag, the payload, the CRC loop and its final xor) is
translated statement by statement from the source. -/
def write_png_chunk_intended (f chunk_type data : List Nat) : List Nat :=
  let f := f ++ be32 data.length
  let f := f ++ chunk_type
  let f := f ++ data
  let crc := (chunk_type ++ data).foldl crcByte 0xffffffff
  f ++ be32 (crc ^^^ 0xffffffff)

/-- `create_simple_png` with the writes of `write_png_chunk` read as
appends (see `write_png_chunk_intended`); otherwise identical to the
faithful model, including the `struct.error` on out-of-range width or
height.  The `color` argument is never used, exactly as in the source. -/
def create_simple_png_intended (width height : Int) (color : Int × Int × Int) :
    Except PyError (List Nat) := do
  let png_data : List Nat := []
  let png_data := png_data ++ pngSignature
  let wBytes ← structPackBE32 width
  let hBytes ← structPackBE32 height
  let ihdr_data := wBytes ++ hBytes ++ [8, 2, 0, 0, 0]
  let png_data := write_png_chunk_intended png_data ihdrTag ihdr_data
  let png_data := write_png_chunk_intended png_data idatTag idat_data
  let png_data := write_png_chunk_intended png_data iendTag []
  Except.ok png_data

/-- Read a 4-byte big-endian integer from the front of a byte list. -/
def readBE32 : List Nat → Option (Nat × List Nat)
  | b3 :: b2 :: b1 :: b0 :: rest =>
      some (b3 * 16777216 + b2 * 65536 + b1 * 256 + b0, rest)
  | _ => none

/-- A parsed chunk: type tag, payload, stored checksum. -/
def Chunk := List Nat × List Nat × Nat

/-- Parse one chunk (4-byte big-endian length, 4-byte tag, payload,
4-byte big-endian checksum) from the front of a byte list, returning the
chunk and the remaining bytes. -/
def parseChunk (bs : List Nat) : Option (Chunk × List Nat) :=
  match readBE32 bs with
  | none => none
  | some (len, r1) =>
    if r1.length < 4 + len then none
    else
      match readBE32 ((r1.drop 4).drop len) with
      | none => none
      | some (crc, r2) => some ((r1.take 4, (r1.drop 4).take len, crc), r2)

/-- Parse a sequence of chunks until the input is exhausted, with fuel;
fails if trailing bytes do not form a chunk. -/
def parseChunksAux : Nat → List Nat → Option (List Chunk)
  | _, [] => some []
  | 0, _ :: _ => none
  | fuel + 1, b :: bs =>
    match parseChunk (b :: bs) with
    | none => none
    | some (c, rest) =>
      match parseChunksAux fuel rest with
      | none => none
      | some cs => some (c :: cs)

/-- Parse an entire byte list as a sequence of chunks; `some` only when
every byte belongs to some chunk. -/
def parseChunks (bs : List Nat) : Option (List Chunk) :=
  parseChunksAux bs.length bs

/-- The chunk sequence of an encoder output: everything after the 8-byte
signature, parsed as chunks. -/
def pngChunks (out : List Nat) : Option (List Chunk) :=
  parseChunks (out.drop 8)

/-- `true` iff every parsed chunk's stored checksum equals the CRC-32 of
its tag concatenated with its payload. -/
def chunksCrcOk (out : List Nat) : Bool :=
  match pngChunks out with
  | some cs => cs.all fun c => c.2.2 == crc32 (c.1 ++ c.2.1)
  | none => false

/-- The type tags of the parsed chunks of an output, in order. -/
def chunkTags (out : List Nat) : Option (List (List Nat)) :=
  (pngChunks out).map (List.map fun c => c.1)

/-- The last parsed chunk of an output. -/
def lastChunk (out : List Nat) : Option Chunk :=
  (pngChunks out).bind List.getLast?

/-- The payload of the second parsed chunk of an output (the IDAT
payload in a well-formed encoder output). -/
def idatPayload (out : List Nat) : Option (List Nat) :=
  ((pngChunks out).bind fun cs => cs[1]?).map fun c => c.2.1

/-- Decode the first chunk of an output as an IHDR chunk: require the
tag `IHDR`, then read two 4-byte big-endian fields (width, height) from
the payload and return them with the remaining payload bytes. -/
def ihdrDecoded (out : List Nat) : Option (Nat × Nat × List Nat) :=
  match pngChunks out with
  | some ((tag, payload, _) :: _) =>
    if tag = ihdrTag then
      match readBE32 payload with
      | some (w, r1) =>
        match readBE32 r1 with
        | some (h, r2) => some (w, h, r2)
        | none => none
      | none => none
    else none
  | _ => none

/-- Width and height accepted by `struct.pack('>I', ·)`. -/
def dimsInRange (width height : Int) : Prop :=
  0 ≤ width ∧ width < 4294967296 ∧ 0 ≤ height ∧ height < 4294967296

/-- The IHDR payload `struct.pack('>IIBBBBB', width, height, 8, 2, 0, 0, 0)`
for in-range dimensions: big-endian width, big-endian height, bit depth 8,
color type 2, compression 0, filter 0, interlace 0. -/
def ihdrPayload (wN hN : Nat) : List Nat :=
  be32 wN ++ be32 hN ++ [8, 2, 0, 0, 0]

/-- The byte sequence `create_simple_png_intended` produces for in-range
dimensions `wN`, `hN` (as naturals): signature, IHDR chunk, IDAT chunk,
IEND chunk. -/
def pngBytes (wN hN : Nat) : List Nat :=
  pngSignature ++
    (write_png_chunk_intended [] ihdrTag (ihdrPayload wN hN) ++
      (write_png_chunk_intended [] idatTag idat_data ++
        write_png_chunk_intended [] iendTag []))

/-- The 66-byte reference output for `create_simple_png(1, 1, (0, 0, 0))`
with the writes read as appends: signature `89504E470D0A1A0A`; IHDR chunk
with payload `00000001 00000001 08 02 00 00 00` and CRC `0x907753DE`; IDAT
chunk with payload `78 9C 62 00 00 00 02 00 01` and CRC `0xFACEC814`; IEND
chunk with empty payload and CRC `0xAE426082`. -/
def refBytes : List Nat :=
  [137, 80, 78, 71, 13, 10, 26, 10,
   0, 0, 0, 13, 73, 72, 68, 82, 0, 0, 0, 1, 0, 0, 0, 1, 8, 2, 0, 0, 0,
   144, 119, 83, 222,
   0, 0, 0, 9, 73, 68, 65, 84, 120, 156, 98, 0, 0, 0, 2, 0, 1,
   250, 206, 200, 20,
   0, 0, 0, 0, 73, 69, 78, 68, 174, 66, 96, 130]

/-- Whether an encoder result is a returned byte sequence (`Except.ok`)
rather than a raised error. -/
def returnsBytes : Except PyError (List Nat) → Bool
  | Except.ok _ => true
  | Except.error _ => false

theorem be32_length (n : Nat) : (be32 n).length = 4 := rfl

theorem be32_mem_lt (n : Nat) : ∀ b ∈ be32 n, b < 256 := by
  intro b hb
  simp only [be32, List.mem_cons, List.mem_singleton, List.not_mem_nil, or_false] at hb
  rcases hb with h | h | h | h <;> subst h <;> omega

theorem readBE32_be32 {n : Nat} (h : n < 4294967296) (rest : List Nat) :
    readBE32 (be32 n ++ rest) = some (n, rest) := by
  simp only [be32, List.cons_append, List.nil_append, readBE32]
  congr 2
  omega

theorem crcRound_lt {crc : Nat} (h : crc < 4294967296) : crcRound crc < 4294967296 := by
  unfold crcRound
  split
  · have h1 : crc / 2 < 4294967296 := by omega
    have h2 : (0xedb88320 : Nat) < 4294967296 := by norm_num
    calc crc / 2 ^^^ 0xedb88320 < 2 ^ 32 :=
          Nat.xor_lt_two_pow (by norm_num at h1 ⊢; omega) (by norm_num)
      _ = 4294967296 := by norm_num
  · omega

theorem crcRound_iter_lt (n : Nat) {x : Nat} (h : x < 4294967296) :
    crcRound^[n] x < 4294967296 := by
  induction n generalizing x with
  | zero => simpa using h
  | succ k ih =>
    rw [Function.iterate_succ_apply]
    exact ih (crcRound_lt h)

theorem crcByte_lt {crc b : Nat} (hc : crc < 4294967296) (hb : b < 256) :
    crcByte crc b < 4294967296 := by
  unfold crcByte
  apply crcRound_iter_lt
  calc crc ^^^ b < 2 ^ 32 :=
        Nat.xor_lt_two_pow (by norm_num at hc ⊢; omega) (by omega)
    _ = 4294967296 := by norm_num

theorem foldl_crcByte_lt (bs : List Nat) (hbs : ∀ b ∈ bs, b < 256) :
    ∀ a, a < 4294967296 → bs.foldl crcByte a < 4294967296 := by
  induction bs with
  | nil => intro a ha; simpa using ha
  | cons x xs ih =>
    intro a ha
    rw [List.foldl_cons]
    exact ih (fun b hb => hbs b (List.mem_cons_of_mem x hb))
      (crcByte a x) (crcByte_lt ha (hbs x (List.mem_cons_self x xs)))

theorem crc32_lt (bs : List Nat) (hbs : ∀ b ∈ bs, b < 256) : crc32 bs < 4294967296 := by
  unfold crc32
  calc (bs.foldl crcByte 0xffffffff) ^^^ 0xffffffff < 2 ^ 32 :=
        Nat.xor_lt_two_pow
          (by
            have := foldl_crcByte_lt bs hbs 0xffffffff (by norm_num)
            norm_num at this ⊢; omega)
          (by norm_num)
    _ = 4294967296 := by norm_num

theorem write_png_chunk_intended_eq (f chunk_type data : List Nat) :
    write_png_chunk_intended f chunk_type data =
      f ++ (be32 data.length ++ (chunk_type ++ (data ++ be32 (crc32 (chunk_type ++ data))))) := by
  simp [write_png_chunk_intended, crc32, List.append_assoc]

theorem write_png_chunk_intended_length (chunk_type data : List Nat) :
    (write_png_chunk_intended [] chunk_type data).length =
      8 + chunk_type.length + data.length := by
  rw [write_png_chunk_intended_eq]
  simp [be32_length]
  omega

theorem create_simple_png_attr {width height : Int} (c : Int × Int × Int)
    (hw : 0 ≤ width ∧ width < 4294967296) (hh : 0 ≤ height ∧ height < 4294967296) :
    create_simple_png width height c = Except.error PyError.attributeError := by
  simp [create_simple_png, structPackBE32, hw, hh, write_png_chunk, Bind.bind, Except.bind]

theorem create_simple_png_struct {width height : Int} (c : Int × Int × Int)
    (h : ¬(0 ≤ width ∧ width < 4294967296) ∨ ¬(0 ≤ height ∧ height < 4294967296)) :
    create_simple_png width height c = Except.error PyError.structError := by
  rcases h with h | h
  · simp [create_simple_png, structPackBE32, h, Bind.bind, Except.bind]
  · by_cases hw : 0 ≤ width ∧ width < 4294967296 <;>
      simp [create_simple_png, structPackBE32, hw, h, Bind.bind, Except.bind,
        write_png_chunk]

theorem create_simple_png_intended_ok {width height : Int} (c : Int × Int × Int)
    (hw : 0 ≤ width ∧ width < 4294967296) (hh : 0 ≤ height ∧ height < 4294967296) :
    create_simple_png_intended width height c =
      Except.ok (pngBytes width.toNat height.toNat) := by
  simp only [create_simple_png_intended, structPackBE32, hw, hh, and_self, if_true,
    Bind.bind, Except.bind, List.nil_append]
  simp only [pngBytes, ihdrPayload, write_png_chunk_intended_eq, List.append_assoc,
    List.nil_append, List.append_nil]

theorem create_simple_png_intended_err {width height : Int} (c : Int × Int × Int)
    (h : ¬(0 ≤ width ∧ width < 4294967296) ∨ ¬(0 ≤ height ∧ height < 4294967296)) :
    create_simple_png_intended width height c = Except.error PyError.structError := by
  rcases h with h | h
  · simp [create_simple_png_intended, structPackBE32, h, Bind.bind, Except.bind]
  · by_cases hw : 0 ≤ width ∧ width < 4294967296 <;>
      simp [create_simple_png_intended, structPackBE32, hw, h, Bind.bind, Except.bind]

theorem create_simple_png_intended_ok_inv {width height : Int} {c : Int × Int × Int}
    {out : List Nat} (hout : create_simple_png_intended width height c = Except.ok out) :
    (0 ≤ width ∧ width < 4294967296) ∧ (0 ≤ height ∧ height < 4294967296) ∧
      out = pngBytes width.toNat height.toNat := by
  by_cases hw : 0 ≤ width ∧ width < 4294967296
  · by_cases hh : 0 ≤ height ∧ height < 4294967296
    · refine ⟨hw, hh, ?_⟩
      rw [create_simple_png_intended_ok c hw hh] at hout
      injection hout with h
      exact h.symm
    · rw [create_simple_png_intended_err c (Or.inr hh)] at hout
      exact absurd hout (by simp)
  · rw [create_simple_png_intended_err c (Or.inl hw)] at hout
    exact absurd hout (by simp)

theorem parseChunk_chunkBytes (chunk_type data rest : List Nat)
    (ht : chunk_type.length = 4) (hd : data.length < 4294967296)
    (hb : ∀ b ∈ chunk_type ++ data, b < 256) :
    parseChunk (write_png_chunk_intended [] chunk_type data ++ rest) =
      some ((chunk_type, data, crc32 (chunk_type ++ data)), rest) := by
  have hc : crc32 (chunk_type ++ data) < 4294967296 := crc32_lt _ hb
  rw [write_png_chunk_intended_eq]
  simp only [List.nil_append, List.append_assoc]
  rw [parseChunk, readBE32_be32 hd]
  have hlen : ¬((chunk_type ++ (data ++ (be32 (crc32 (chunk_type ++ data)) ++ rest))).length
      < 4 + data.length) := by
    simp only [List.length_append, be32_length, ht]
    omega
  simp only [hlen, if_false]
  rw [List.take_left' ht, List.drop_left' ht, List.take_left' rfl, List.drop_left' rfl,
    readBE32_be32 hc]

theorem parseChunksAux_cons (fuel : Nat) {bs : List Nat} {c : Chunk} {rest : List Nat}
    (hne : bs ≠ []) (h : parseChunk bs = some (c, rest)) :
    parseChunksAux (fuel + 1) bs =
      match parseChunksAux fuel rest with
      | none => none
      | some cs => some (c :: cs) := by
  match bs, hne with
  | b :: bs', _ =>
    rw [parseChunksAux, h]

theorem chunkBytes_ne_nil (chunk_type data : List Nat) :
    write_png_chunk_intended [] chunk_type data ≠ [] := by
  intro h
  have := congrArg List.length h
  rw [write_png_chunk_intended_length] at this
  simp at this

theorem ihdrPayload_length (wN hN : Nat) : (ihdrPayload wN hN).length = 13 := by
  simp [ihdrPayload, be32_length]

theorem ihdr_bytes_lt (wN hN : Nat) :
    ∀ b ∈ ihdrTag ++ ihdrPayload wN hN, b < 256 := by
  intro b hb
  rw [ihdrPayload] at hb
  simp only [ihdrTag, List.mem_append, List.mem_cons, List.not_mem_nil, or_false] at hb
  rcases hb with (h | h | h | h) | (h | h) | h
  · omega
  · omega
  · omega
  · omega
  · exact be32_mem_lt wN b h
  · exact be32_mem_lt hN b h
  · simp at h
    rcases h with h | h | h | h | h <;> omega

theorem pngBytes_length (wN hN : Nat) : (pngBytes wN hN).length = 66 := by
  simp [pngBytes, List.length_append, write_png_chunk_intended_length, ihdrPayload_length,
    pngSignature, ihdrTag, idatTag, iendTag, idat_data]

theorem pngChunks_pngBytes (wN hN : Nat) :
    pngChunks (pngBytes wN hN) =
      some [(ihdrTag, ihdrPayload wN hN, crc32 (ihdrTag ++ ihdrPayload wN hN)),
            (idatTag, idat_data, crc32 (idatTag ++ idat_data)),
            (iendTag, [], crc32 (iendTag ++ []))] := by
  have h1 : parseChunk (write_png_chunk_intended [] ihdrTag (ihdrPayload wN hN) ++
      (write_png_chunk_intended [] idatTag idat_data ++ write_png_chunk_intended [] iendTag [])) =
      some ((ihdrTag, ihdrPayload wN hN, crc32 (ihdrTag ++ ihdrPayload wN hN)),
        write_png_chunk_intended [] idatTag idat_data ++ write_png_chunk_intended [] iendTag []) :=
    parseChunk_chunkBytes _ _ _ rfl (by rw [ihdrPayload_length]; norm_num) (ihdr_bytes_lt wN hN)
  have h2 : parseChunk (write_png_chunk_intended [] idatTag idat_data ++
      write_png_chunk_intended [] iendTag []) =
      some ((idatTag, idat_data, crc32 (idatTag ++ idat_data)),
        write_png_chunk_intended [] iendTag []) :=
    parseChunk_chunkBytes _ _ _ rfl (by decide) (by decide)
  have h3 : parseChunk (write_png_chunk_intended [] iendTag []) =
      some ((iendTag, [], crc32 (iendTag ++ [])), []) := by
    have h := parseChunk_chunkBytes iendTag [] [] rfl (by decide) (by decide)
    rwa [List.append_nil] at h
  have hne1 : write_png_chunk_intended [] ihdrTag (ihdrPayload wN hN) ++
      (write_png_chunk_intended [] idatTag idat_data ++
        write_png_chunk_intended [] iendTag []) ≠ [] := by
    intro hcontra
    exact chunkBytes_ne_nil _ _ (List.append_eq_nil.mp hcontra).1
  have hne2 : write_png_chunk_intended [] idatTag idat_data ++
      write_png_chunk_intended [] iendTag [] ≠ [] := by
    intro hcontra
    exact chunkBytes_ne_nil _ _ (List.append_eq_nil.mp hcontra).1
  have hne3 : write_png_chunk_intended [] iendTag [] ≠ [] := chunkBytes_ne_nil _ _
  have hlen : (write_png_chunk_intended [] ihdrTag (ihdrPayload wN hN) ++
      (write_png_chunk_intended [] idatTag idat_data ++
        write_png_chunk_intended [] iendTag [])).length = 58 := by
    simp [List.length_append, write_png_chunk_intended_length, ihdrPayload_length,
      ihdrTag, idatTag, iendTag, idat_data]
  rw [pngChunks, pngBytes, List.drop_left' (show pngSignature.length = 8 from rfl),
    parseChunks, hlen, show (58 : Nat) = 57 + 1 from rfl, parseChunksAux_cons 57 hne1 h1,
    show (57 : Nat) = 56 + 1 from rfl, parseChunksAux_cons 56 hne2 h2,
    show (56 : Nat) = 55 + 1 from rfl, parseChunksAux_cons 55 hne3 h3]
  rfl

set_option maxRecDepth 10000 in
/-- C1: on width 1, height 1, color (0,0,0) the source as written raises
`AttributeError` (its `bytearray` buffer has no `write` method), and with
the writes read as appends — the evident intent — it returns exactly the
66-byte reference sequence `refBytes`: the signature `89504E470D0A1A0A`,
an IHDR chunk with payload `00000001 00000001 08 02 00 00 00`, an IDAT
chunk with the 9-byte payload `78 9C 62 00 00 00 02 00 01`, and an IEND
chunk with empty payload, each chunk followed by its correct CRC-32. -/
theorem C1_reference_bytes :
    create_simple_png 1 1 (0, 0, 0) = Except.error PyError.attributeError ∧
    create_simple_png_intended 1 1 (0, 0, 0) = Except.ok refBytes :=
  ⟨by rfl, by rfl⟩

/-- C2: whenever the intended encoder returns a byte sequence, the source
as written raises `AttributeError` instead, and in the returned sequence
every chunk's 4-byte stored checksum equals the CRC-32 (polynomial
`0xEDB88320`, bit-reversed, initialized to `0xFFFFFFFF` and finalized by
XOR with `0xFFFFFFFF`) of its type tag concatenated with its payload, for
every width, height and color. -/
theorem C2_chunk_crcs (w h : Int) (c : Int × Int × Int) (out : List Nat)
    (hout : create_simple_png_intended w h c = Except.ok out) :
    create_simple_png w h c = Except.error PyError.attributeError ∧
    chunksCrcOk out = true := by
  obtain ⟨hw, hh, houteq⟩ := create_simple_png_intended_ok_inv hout
  subst houteq
  refine ⟨create_simple_png_attr c hw hh, ?_⟩
  rw [chunksCrcOk, pngChunks_pngBytes _ _]
  simp

set_option maxRecDepth 10000 in
/-- Witness for C2 at width 1, height 1, color (0,0,0). -/
theorem C2_chunk_crcs_witness :
    create_simple_png 1 1 (0, 0, 0) = Except.error PyError.attributeError ∧
    chunksCrcOk refBytes = true :=
  C2_chunk_crcs 1 1 (0, 0, 0) refBytes (by rfl)

/-- C3: whenever the intended encoder returns a byte sequence (the source
as written raises `AttributeError` instead), the IDAT chunk's payload is
the constant 9-byte sequence `78 9C 62 00 00 00 02 00 01` (`idat_data`),
for every width, height and color: it does not encode width × height
pixels and does not vary with any input. -/
theorem C3_idat_payload_constant (w h : Int) (c : Int × Int × Int) (out : List Nat)
    (hout : create_simple_png_intended w h c = Except.ok out) :
    create_simple_png w h c = Except.error PyError.attributeError ∧
    idatPayload out = some idat_data := by
  obtain ⟨hw, hh, houteq⟩ := create_simple_png_intended_ok_inv hout
  subst houteq
  refine ⟨create_simple_png_attr c hw hh, ?_⟩
  rw [idatPayload, pngChunks_pngBytes _ _]
  rfl

set_option maxRecDepth 10000 in
/-- Witness for C3 at width 1, height 1, color (0,0,0). -/
theorem C3_idat_payload_constant_witness :
    create_simple_png 1 1 (0, 0, 0) = Except.error PyError.attributeError ∧
    idatPayload refBytes = some idat_data :=
  C3_idat_payload_constant 1 1 (0, 0, 0) refBytes (by rfl)

set_option maxRecDepth 10000 in
/-- C4 counterexample: the claim "the encoder fails with an
InvalidDimensions error if and only if width or height is non-positive"
is false on the code.  At width 0 (non-positive) the dimension check the
claim asserts does not exist: `struct.pack` accepts 0, so with the writes
read as appends the call returns a byte sequence, and as written it fails
only with `AttributeError` (the `bytearray.write` slip), not a dimension
error.  At width 2^32 (positive) the call fails with `struct.error`, a
dimension-validity failure on a positive width. -/
theorem C4_counterexample :
    create_simple_png_intended 0 1 (0, 0, 0) = Except.ok (pngBytes 0 1) ∧
    create_simple_png 0 1 (0, 0, 0) = Except.error PyError.attributeError ∧
    create_simple_png 4294967296 1 (0, 0, 0) = Except.error PyError.structError :=
  ⟨by rfl, by rfl, by rfl⟩

/-- C4 amended: the encoder performs no dimension validation and has no
InvalidDimensions error.  As written it fails on every call: with
`struct.error` exactly when width or height is outside `[0, 2^32)`
(`dimsInRange`), and otherwise with `AttributeError` from calling `write`
on a `bytearray`.  With the write slip repaired it returns a byte
sequence exactly when width and height are in `[0, 2^32)`; in particular
width 0 and height 0 are accepted. -/
theorem C4_amended_no_validation (w h : Int) (c : Int × Int × Int) :
    (create_simple_png w h c = Except.error PyError.structError ↔ ¬dimsInRange w h) ∧
    (create_simple_png w h c = Except.error PyError.attributeError ↔ dimsInRange w h) ∧
    (returnsBytes (create_simple_png_intended w h c) = true ↔ dimsInRange w h) := by
  by_cases hd : dimsInRange w h
  · have hd2 := hd
    rw [dimsInRange] at hd2
    obtain ⟨h1, h2, h3, h4⟩ := hd2
    rw [create_simple_png_attr c ⟨h1, h2⟩ ⟨h3, h4⟩,
      create_simple_png_intended_ok c ⟨h1, h2⟩ ⟨h3, h4⟩]
    refine ⟨?_, ?_, ?_⟩
    · simp [hd]
    · simp [hd]
    · simp [returnsBytes, hd]
  · have h' : ¬(0 ≤ w ∧ w < 4294967296) ∨ ¬(0 ≤ h ∧ h < 4294967296) := by
      rw [dimsInRange] at hd
      by_cases hw : 0 ≤ w ∧ w < 4294967296
      · exact Or.inr fun hh => hd ⟨hw.1, hw.2, hh.1, hh.2⟩
      · exact Or.inl hw
    rw [create_simple_png_struct c h', create_simple_png_intended_err c h']
    refine ⟨?_, ?_, ?_⟩
    · simp [hd]
    · simp [hd]
    · simp [returnsBytes, hd]

/-- C5: whenever the intended encoder returns a byte sequence for
positive width and height (the source as written raises `AttributeError`
instead), decoding its IHDR chunk yields a width field equal to the width
argument and a height field equal to the height argument, each read as a
4-byte big-endian integer, followed by the bytes bit depth 8, color type
2, compression 0, filter 0, interlace 0. -/
theorem C5_ihdr_dimensions (w h : Int) (c : Int × Int × Int) (out : List Nat)
    (hw0 : 0 < w) (hh0 : 0 < h)
    (hout : create_simple_png_intended w h c = Except.ok out) :
    create_simple_png w h c = Except.error PyError.attributeError ∧
    ihdrDecoded out = some (w.toNat, h.toNat, [8, 2, 0, 0, 0]) := by
  obtain ⟨hw, hh, houteq⟩ := create_simple_png_intended_ok_inv hout
  subst houteq
  refine ⟨create_simple_png_attr c hw hh, ?_⟩
  rw [ihdrDecoded, pngChunks_pngBytes _ _]
  simp only [ihdrPayload, List.append_assoc,
    @readBE32_be32 w.toNat (by omega) (be32 h.toNat ++ [8, 2, 0, 0, 0]),
    @readBE32_be32 h.toNat (by omega) [8, 2, 0, 0, 0]]
  simp

set_option maxRecDepth 10000 in
/-- Witness for C5 at width 1, height 1, color (0,0,0). -/
theorem C5_ihdr_dimensions_witness :
    create_simple_png 1 1 (0, 0, 0) = Except.error PyError.attributeError ∧
    ihdrDecoded refBytes = some (1, 1, [8, 2, 0, 0, 0]) := by
  have h := C5_ihdr_dimensions 1 1 (0, 0, 0) refBytes (by norm_num) (by norm_num) (by rfl)
  exact h

/-- C6: whenever the intended encoder returns a byte sequence (the
source as written raises `AttributeError` instead), it begins with the
fixed 8-byte PNG signature `89 50 4E 47 0D 0A 1A 0A`, for every width,
height and color. -/
theorem C6_starts_with_signature (w h : Int) (c : Int × Int × Int) (out : List Nat)
    (hout : create_simple_png_intended w h c = Except.ok out) :
    create_simple_png w h c = Except.error PyError.attributeError ∧
    out.take 8 = pngSignature := by
  obtain ⟨hw, hh, houteq⟩ := create_simple_png_intended_ok_inv hout
  subst houteq
  refine ⟨create_simple_png_attr c hw hh, ?_⟩
  rw [pngBytes, List.take_left' (show pngSignature.length = 8 from rfl)]

set_option maxRecDepth 10000 in
/-- Witness for C6 at width 1, height 1, color (0,0,0). -/
theorem C6_starts_with_signature_witness :
    create_simple_png 1 1 (0, 0, 0) = Except.error PyError.attributeError ∧
    refBytes.take 8 = pngSignature :=
  C6_starts_with_signature 1 1 (0, 0, 0) refBytes (by rfl)

/-- C7: whenever the intended encoder returns a byte sequence (the
source as written raises `AttributeError` instead), parsing everything
after the signature consumes all remaining bytes and yields exactly the
chunk tags IHDR, IDAT, IEND in that order — so exactly one chunk of each
tag, with the IEND chunk last in the byte sequence — and the last chunk
has an empty payload with the correct CRC-32 of its tag. -/
theorem C7_chunk_structure (w h : Int) (c : Int × Int × Int) (out : List Nat)
    (hout : create_simple_png_intended w h c = Except.ok out) :
    create_simple_png w h c = Except.error PyError.attributeError ∧
    chunkTags out = some [ihdrTag, idatTag, iendTag] ∧
    lastChunk out = some (iendTag, [], crc32 (iendTag ++ [])) := by
  obtain ⟨hw, hh, houteq⟩ := create_simple_png_intended_ok_inv hout
  subst houteq
  refine ⟨create_simple_png_attr c hw hh, ?_, ?_⟩
  · rw [chunkTags, pngChunks_pngBytes _ _]
    rfl
  · rw [lastChunk, pngChunks_pngBytes _ _]
    rfl

set_option maxRecDepth 10000 in
/-- Witness for C7 at width 1, height 1, color (0,0,0). -/
theorem C7_chunk_structure_witness :
    create_simple_png 1 1 (0, 0, 0) = Except.error PyError.attributeError ∧
    chunkTags refBytes = some [ihdrTag, idatTag, iendTag] ∧
    lastChunk refBytes = some (iendTag, [], crc32 (iendTag ++ [])) :=
  C7_chunk_structure 1 1 (0, 0, 0) refBytes (by rfl)

/-- C8: the chunk writer as written in the source raises
`AttributeError` on any buffer and input (its first statement calls
`write` on a `bytearray`); with the writes read as appends it serializes
a chunk as the 4-byte big-endian payload length, the 4-byte type tag,
the payload, and the 4-byte big-endian CRC-32 of the tag concatenated
with the payload — and parsing such a chunk recovers exactly the tag,
the payload and that CRC-32. -/
theorem C8_chunk_serialization :
    (∀ f chunk_type data : List Nat,
        write_png_chunk f chunk_type data = Except.error PyError.attributeError) ∧
    (∀ f chunk_type data : List Nat,
        write_png_chunk_intended f chunk_type data =
          f ++ (be32 data.length ++ (chunk_type ++
            (data ++ be32 (crc32 (chunk_type ++ data)))))) ∧
    (∀ chunk_type data rest : List Nat,
        chunk_type.length = 4 → data.length < 4294967296 →
        (∀ b ∈ chunk_type ++ data, b < 256) →
        parseChunk (write_png_chunk_intended [] chunk_type data ++ rest) =
          some ((chunk_type, data, crc32 (chunk_type ++ data)), rest)) :=
  ⟨fun _ _ _ => rfl, write_png_chunk_intended_eq, parseChunk_chunkBytes⟩

set_option maxRecDepth 10000 in
/-- Witness for C8: the serialization and parse round-trip evaluated on
the concrete IEND chunk. -/
theorem C8_chunk_serialization_witness :
    parseChunk (write_png_chunk_intended [] iendTag [] ++ []) =
      some ((iendTag, [], crc32 (iendTag ++ [])), []) :=
  C8_chunk_serialization.2.2 iendTag [] [] (by rfl) (by decide) (by decide)

/-- C9: the encoder's behaviour is independent of the color argument,
for both the faithful model (where every call raises) and the intended
model (where the returned byte sequence never contains the color): any
two colors give identical results for every width and height. -/
theorem C9_color_independence (w h : Int) (c1 c2 : Int × Int × Int) :
    create_simple_png w h c1 = create_simple_png w h c2 ∧
    create_simple_png_intended w h c1 = create_simple_png_intended w h c2 :=
  ⟨rfl, rfl⟩

/-- C10: whenever the intended encoder returns a byte sequence (the
source as written raises `AttributeError` instead), that sequence has
total length 66: 8 signature bytes, a 25-byte IHDR chunk (12 bytes of
framing plus a 13-byte payload), a 21-byte IDAT chunk (12 + 9), and a
12-byte IEND chunk (12 + 0) — for every accepted width, height and
color. -/
theorem C10_total_length (w h : Int) (c : Int × Int × Int) (out : List Nat)
    (hout : create_simple_png_intended w h c = Except.ok out) :
    create_simple_png w h c = Except.error PyError.attributeError ∧
    out.length = 66 := by
  obtain ⟨hw, hh, houteq⟩ := create_simple_png_intended_ok_inv hout
  subst houteq
  exact ⟨create_simple_png_attr c hw hh, pngBytes_length _ _⟩

set_option maxRecDepth 10000 in
/-- Witness for C10 at width 1, height 1, color (0,0,0). -/
theorem C10_total_length_witness :
    create_simple_png 1 1 (0, 0, 0) = Except.error PyError.attributeError ∧
    refBytes.length = 66 :=
  C10_total_length 1 1 (0, 0, 0) refBytes (by rfl)
